import Mathlib

set_option maxHeartbeats 1000000

namespace FsApi

/-!
Shallow embedding of the fs-api FreeSWITCH control service (Go sources:
auth.go, cc_handlers.go, cc_types.go, esl.go, middleware.go, main.go plus the
handlers file).  Strings are Lean strings; Go byte-indexed operations are
modelled on character lists (all inputs of interest are ASCII); Go maps built
by sequential insertion are modelled as ordered pair lists with last-write-wins
lookup; fallible Go calls returning (value, error) are modelled with Except.
-/

/-! ## String helpers mirroring the Go standard library functions the code uses -/

/-- Split a character list at the first occurrence of `sep`, returning
the parts before and after it, or `none` when `sep` does not occur. -/
def splitFirst (sep : Char) : List Char → Option (List Char × List Char)
  | [] => none
  | c :: cs =>
    if c = sep then some ([], cs)
    else
      match splitFirst sep cs with
      | none => none
      | some (l, r) => some (c :: l, r)

/-- Go strings.SplitN with a one-character separator: at most `n` parts,
the last part keeping the unsplit remainder (the code uses n = 2 and n = 3). -/
def splitNChar (sep : Char) : Nat → List Char → List (List Char)
  | 0, _ => []
  | 1, cs => [cs]
  | n + 2, cs =>
    match splitFirst sep cs with
    | none => [cs]
    | some (l, r) => l :: splitNChar sep (n + 1) r

/-- Go strings.Index on character lists: index of the first occurrence of
`needle` in the haystack, `none` when absent. -/
def strIndex (needle : List Char) : List Char → Option Nat
  | [] => if needle.isPrefixOf ([] : List Char) then some 0 else none
  | c :: cs =>
    if needle.isPrefixOf (c :: cs) then some 0
    else (strIndex needle cs).map (· + 1)

/-- Go strings.Contains. -/
def goContains (s sub : String) : Bool :=
  (strIndex sub.data s.data).isSome

/-- The whitespace class of Go unicode.IsSpace restricted to the characters
that can occur here: tab, newline, vertical tab, form feed, carriage return,
space, next-line (133) and no-break space (160). -/
def isSpaceGo (c : Char) : Bool :=
  c = ' ' || c = Char.ofNat 9 || c = Char.ofNat 10 || c = Char.ofNat 11 ||
    c = Char.ofNat 12 || c = Char.ofNat 13 || c = Char.ofNat 133 || c = Char.ofNat 160

/-- Go strings.TrimSpace on character lists: drop leading and trailing
whitespace. -/
def goTrimChars (cs : List Char) : List Char :=
  ((cs.dropWhile isSpaceGo).reverse.dropWhile isSpaceGo).reverse

/-- Go strings.TrimSpace. -/
def goTrim (s : String) : String :=
  ⟨goTrimChars s.data⟩

/-- Go strings.Split with a one-character separator, on character lists:
split at every occurrence; the empty input yields one empty part. -/
def goSplit (sep : Char) : List Char → List (List Char)
  | [] => [[]]
  | c :: cs =>
    if c = sep then [] :: goSplit sep cs
    else
      match goSplit sep cs with
      | [] => [[c]]
      | p :: ps => (c :: p) :: ps

/-- Go strings.Split with a one-character separator, on strings (the code
only ever splits on the comma, the pipe and the newline). -/
def goSplitStr (sep : Char) (s : String) : List String :=
  (goSplit sep s.data).map (fun l => (⟨l⟩ : String))

/-- Go strings.HasPrefix. -/
def goStartsWith (s pre : String) : Bool :=
  pre.data.isPrefixOf s.data

/-- Go strings.Join. -/
def goJoin (sep : String) : List String → String
  | [] => ""
  | [x] => x
  | x :: y :: xs => x ++ sep ++ goJoin sep (y :: xs)

/-! ## auth.go: scope derivation (contextAuthMiddleware) -/

/-- The reserved wildcard scope token (constant WILDCARD_CONTEXT in auth.go). -/
def WILDCARD_CONTEXT : String := "*"

/-- Request-scoped authorization data (struct contextAuth in auth.go). -/
structure ContextAuth where
  contexts : List String
  unrestricted : Bool
deriving Repr, DecidableEq

/-- The token loop of contextAuthMiddleware: trim each comma-separated token,
skip empty tokens, stop with the unrestricted flag on the wildcard token
(the Go loop breaks there), otherwise accumulate the token. -/
def parseContextTokens : List String → List String × Bool
  | [] => ([], false)
  | c :: rest =>
    let trimmed := goTrim c
    if trimmed = "" then parseContextTokens rest
    else if trimmed = WILDCARD_CONTEXT then ([], true)
    else
      let res := parseContextTokens rest
      (trimmed :: res.1, res.2)

/-- contextAuthMiddleware (auth.go): derive the scope from the
X-Allowed-Contexts header value; the empty string models an absent header
(http.Header.Get returns "" in that case), which means unrestricted. -/
def contextAuthMiddleware (header : String) : ContextAuth :=
  if header = "" then { contexts := [], unrestricted := true }
  else
    let res := parseContextTokens (goSplitStr ',' header)
    { contexts := res.1, unrestricted := res.2 }

/-! ## cc_handlers.go: domain helpers and row filters -/

/-- A parsed table row: field-name/value pairs in header order. -/
abbrev Row := List (String × String)

/-- Lookup in a row, modelling a Go map built by sequential insertion:
the last binding for a key wins, and a missing key yields the zero value "". -/
def rowGet (row : Row) (key : String) : String :=
  (row.foldl (fun acc kv => if kv.1 = key then some kv.2 else acc) none).getD ""

/-- extractDomain (cc_handlers.go): the part after the first at-sign of a
name-at-domain string, or "" when there is no at-sign. -/
def extractDomain (nameAtDomain : String) : String :=
  match splitNChar (Char.ofNat 64) 2 nameAtDomain.data with
  | [_, d] => ⟨d⟩
  | _ => ""

/-- isDomainAllowed (cc_handlers.go): the domain part of a name-at-domain
string is nonempty and occurs in the allowed contexts. -/
def isDomainAllowed (nameAtDomain : String) (allowedContexts : List String) : Bool :=
  let domain := extractDomain nameAtDomain
  if domain = "" then false
  else allowedContexts.contains domain

/-- filterByDomain (cc_handlers.go): keep rows whose `fieldName` value has an
allowed domain. -/
def filterByDomain (rows : List Row) (fieldName : String) (allowedContexts : List String) :
    List Row :=
  rows.filter (fun row => isDomainAllowed (rowGet row fieldName) allowedContexts)

/-! ## middleware.go: the three response parsers -/

/-- One step of the value scan in ExtractDomainFromContact: the Go loop
returns the slice before the first delimiter among comma, space, closing
curly brace (code 125), single quote (code 39) and double quote (code 34). -/
def isStopDelim (c : Char) : Bool :=
  c = ',' || c = ' ' || c = Char.ofNat 125 || c = Char.ofNat 39 || c = Char.ofNat 34

/-- The scan loop of ExtractDomainFromContact: characters before the first
delimiter, the whole rest when no delimiter occurs. -/
def takeToDelim : List Char → List Char
  | [] => []
  | c :: cs => if isStopDelim c then [] else c :: takeToDelim cs

/-- The literal key the agent-contact extractor searches for. -/
def domainNameKey : String := "domain_name="

/-- ExtractDomainFromContact (middleware.go): value following the first
occurrence of "domain_name=" up to the next delimiter, "" when absent. -/
def ExtractDomainFromContact (contact : String) : String :=
  match strIndex domainNameKey.data contact.data with
  | none => ""
  | some idx =>
    let start := idx + domainNameKey.data.length
    if start ≥ contact.data.length then ""
    else ⟨takeToDelim (contact.data.drop start)⟩

/-- filterAgentsByDomain (cc_handlers.go): keep agent rows whose contact
field carries an allowed embedded domain; rows with no extractable domain
are dropped. -/
def filterAgentsByDomain (rows : List Row) (allowedContexts : List String) : List Row :=
  rows.filter (fun row =>
    let domain := ExtractDomainFromContact (rowGet row "contact")
    domain != "" && allowedContexts.contains domain)

/-- The skip condition both line parsers in middleware.go apply to each
trimmed line: blank, or an acknowledgement line beginning with "+OK". -/
def skipLine (l : String) : Bool :=
  l == "" || goStartsWith l "+OK"

/-- The row-building loop of ParsePipeDelimited: for each header (with its
index) take the matching data field trimmed, or "" when the data row is
shorter; data fields beyond the headers are never consulted. -/
def mkRowGo (fields : List String) : Nat → List String → Row
  | _, [] => []
  | i, h :: hs =>
    (h, if i < fields.length then goTrim (fields.getD i "") else "") :: mkRowGo fields (i + 1) hs

/-- The line loop of ParsePipeDelimited, carrying the optional parsed header:
trim the line, skip blank lines and lines starting with "+OK"; the first kept
line becomes the header (fields split on the pipe and trimmed); every later
kept line becomes one row. -/
def ppdLoop (headers : Option (List String)) : List String → List Row
  | [] => []
  | line :: rest =>
    let l := goTrim line
    if skipLine l then ppdLoop headers rest
    else
      match headers with
      | none => ppdLoop (some ((goSplitStr '|' l).map goTrim)) rest
      | some hs => mkRowGo (goSplitStr '|' l) 0 hs :: ppdLoop (some hs) rest

/-- ParsePipeDelimited (middleware.go). -/
def ParsePipeDelimited (raw : String) : List Row :=
  ppdLoop none (goSplitStr '\n' raw)

/-- Modelled from the spec: zip data fields against the header, missing
trailing fields mapping to the empty string and extra fields dropped. -/
def zipPad : List String → List String → Row
  | [], _ => []
  | h :: hs, [] => (h, "") :: zipPad hs []
  | h :: hs, f :: fs => (h, goTrim f) :: zipPad hs fs

/-- Modelled from the spec: the table parser described in the specification -
drop blank and acknowledgement lines, take the first remaining line as the
header, zip every later line against it. -/
def specTableRows (raw : String) : List Row :=
  let ls := ((goSplitStr '\n' raw).map goTrim).filter (fun l => !skipLine l)
  match ls with
  | [] => []
  | h :: ds =>
    let hs := (goSplitStr '|' h).map goTrim
    ds.map (fun d => zipPad hs (goSplitStr '|' d))

/-- Digit-string value: `some` of the decimal value when the list is a
nonempty run of ASCII digits, else `none`. -/
def digitsVal (ds : List Char) : Option Nat :=
  if !ds.isEmpty && ds.all (·.isDigit) then
    some (ds.foldl (fun a c => a * 10 + (c.toNat - 48)) 0)
  else none

/-- Largest value of a 64-bit signed integer, the range limit of Go
strconv.Atoi on a 64-bit platform. -/
def maxInt64 : Nat := 9223372036854775807

/-- Go strconv.Atoi: optional sign, then a nonempty digit run making up the
whole string, within the 64-bit signed range; anything else is an error. -/
def goAtoi (s : String) : Option Int :=
  match s.data with
  | '+' :: ds => (digitsVal ds).bind (fun n => if n ≤ maxInt64 then some (n : Int) else none)
  | '-' :: ds => (digitsVal ds).bind (fun n => if n ≤ maxInt64 + 1 then some (-(n : Int)) else none)
  | ds => (digitsVal ds).bind (fun n => if n ≤ maxInt64 then some (n : Int) else none)

/-- The line loop of ParsePlainCount: first line that is not blank, does not
start with "+OK", and parses as an integer. -/
def firstCount : List String → Option Int
  | [] => none
  | l :: ls =>
    let t := goTrim l
    if skipLine t then firstCount ls
    else
      match goAtoi t with
      | some n => some n
      | none => firstCount ls

/-- ParsePlainCount (middleware.go). -/
def ParsePlainCount (raw : String) : Except String Int :=
  let trimmed := goTrim raw
  match firstCount (goSplitStr '\n' trimmed) with
  | some n => .ok n
  | none => .error ("could not parse count from: " ++ trimmed)

/-- Modelled from the spec: the integer a single line contributes to the
counter parser - `none` for blank and acknowledgement lines and lines that do
not parse as an integer. -/
def countLineVal (l : String) : Option Int :=
  let t := goTrim l
  if skipLine t then none else goAtoi t

/-- Modelled from the spec: the embedded-token extractor described in the
specification - the substring following the first occurrence of the key up
to (but not including) the next delimiter, or to the end of the string, and
"" when the key is absent. -/
def specExtractDomain (contact : String) : String :=
  match strIndex domainNameKey.data contact.data with
  | none => ""
  | some idx =>
    ⟨(contact.data.drop (idx + domainNameKey.data.length)).takeWhile
      (fun c => !isStopDelim c)⟩

/-! ## esl.go: the control-channel session

The session owns one cached connection.  Connections are modelled by
generation numbers so that establishing a brand-new connection is visible in
the state; the outcome of dialing and of one transport round trip are inputs,
since they depend on the external switch. -/

/-- Outcome of eslgo.Dial. -/
inductive DialOutcome where
  | ok
  | err (msg : String)
deriving Repr, DecidableEq

/-- Outcome of one transport round trip (conn.SendCommand): either a
transport-level failure (including a context timeout), or a reply carrying a
Reply-Text header slot and a body slot. -/
inductive SendOutcome where
  | transportErr (msg : String)
  | reply (replyText : String) (body : String)
deriving Repr, DecidableEq

/-- State of ESLgoClient (esl.go): the cached connection (none = absent) and
the generation number the next established connection will get. -/
structure ESLgoClient where
  conn : Option Nat
  nextId : Nat
deriving Repr, DecidableEq

/-- getConnection (esl.go): reuse a cached connection; otherwise dial, caching
and returning the fresh connection on success, failing with a connection
error (and an unchanged absent cache) on dial failure. -/
def getConnection (esl : ESLgoClient) (dial : DialOutcome) :
    Except String Nat × ESLgoClient :=
  match esl.conn with
  | some c => (.ok c, esl)
  | none =>
    match dial with
    | .ok => (.ok esl.nextId, { conn := some esl.nextId, nextId := esl.nextId + 1 })
    | .err m => (.error ("ESL connection failed: " ++ m), esl)

/-- The parse of a command string inside SendCommand (esl.go): split into at
most three space-separated parts; fewer than two parts or a first part other
than "api" is an error; the third part (the arguments) defaults to "". -/
structure ApiCmd where
  command : String
  arguments : String
deriving Repr, DecidableEq

/-- The command-format checks of SendCommand (esl.go). -/
def parseApiCommand (cmd : String) : Except String ApiCmd :=
  let parts := (splitNChar ' ' 3 cmd.data).map (fun l => (⟨l⟩ : String))
  if parts.length < 2 then .error ("invalid command format: " ++ cmd)
  else if parts.getD 0 "" = "api" then
    .ok { command := parts.getD 1 "", arguments := parts.getD 2 "" }
  else .error ("unsupported command type: " ++ parts.getD 0 "")

/-- SendCommand (esl.go).  Result: the normalized reply or an error, the new
session state, and the list of commands actually handed to the transport
(showing that at most one transport attempt is ever made).  On a reply whose
Reply-Text starts with "-ERR" the Go code returns the text together with a
non-nil error; since every caller checks the error first, this is modelled as
the error branch, and the cached connection is kept. -/
def SendCommand (esl : ESLgoClient) (cmd : String) (dial : DialOutcome)
    (out : SendOutcome) : (Except String String × ESLgoClient) × List String :=
  match getConnection esl dial with
  | (.error e, esl1) => ((.error e, esl1), [])
  | (.ok _, esl1) =>
    match parseApiCommand cmd with
    | .error e => ((.error e, esl1), [])
    | .ok _ =>
      match out with
      | .transportErr m =>
        ((.error ("ESL command failed: " ++ m), { esl1 with conn := none }), [cmd])
      | .reply replyText body =>
        if goStartsWith replyText "-ERR" then
          ((.error ("ESL error: " ++ replyText), esl1), [cmd])
        else if body ≠ "" then ((.ok body, esl1), [cmd])
        else ((.ok replyText, esl1), [cmd])

/-! ## Handler-level model

Handlers drive the session through the ESLClient interface; at this level the
switch is an oracle from command strings to replies or errors, and each
handler returns its HTTP response together with the ordered list of commands
it sent.  JSON decoding of request bodies is modelled by Option (none = the
body did not decode), and the JSON unmarshal of the show-calls reply by an
oracle from the reply string to rows. -/

/-- One row of the show-calls JSON (getCallContext in auth.go). -/
structure CallRow where
  uuid : String
  buuid : String
  accountcode : String
deriving Repr, DecidableEq

/-- The external switch plus external JSON decoding, as oracles. -/
structure Env where
  esl : String → Except String String
  callsParse : String → Except String (List CallRow)

/-- An HTTP response produced by a handler: an error status with message, a
success message, a list payload, or a count payload. -/
inductive ApiResponse where
  | err (status : Nat) (message : String)
  | success (message : String)
  | listResp (rowCount : Nat) (rows : List Row)
  | countResp (count : Int)
deriving Repr, DecidableEq

/-- getErrorStatusCode (handlers): 503 for connection failures, 502 for
remote command errors, 500 otherwise. -/
def getErrorStatusCode (errMsg : String) : Nat :=
  if goContains errMsg "ESL connection failed" then 503
  else if goContains errMsg "ESL error" || goContains errMsg "-ERR" then 502
  else 500

/-- Hexadecimal digit test for validateUUID. -/
def isHexDigit (c : Char) : Bool :=
  c.isDigit || (97 ≤ c.toNat && c.toNat ≤ 102) || (65 ≤ c.toNat && c.toNat ≤ 70)

/-- Models validateUUID (main.go), which accepts a string iff the external
library call uuid.Parse succeeds; embedded here is the canonical 36-character
dashed hexadecimal form (8-4-4-4-12), the only form the claims exercise. -/
def validateUUID (s : String) : Bool :=
  s.data.length == 36 &&
    (List.range 36).all (fun i =>
      let c := s.data.getD i ' '
      if i == 8 || i == 13 || i == 18 || i == 23 then c == '-' else isHexDigit c)

/-- The command getCallContext sends. -/
def showCallsCmd : String := "api show calls as json"

/-- CallContextInfo (auth.go). -/
structure CallContextInfo where
  uuid : String
  accountCode : String
  found : Bool
deriving Repr, DecidableEq

/-- getCallContext (auth.go): query the live call list and match the given
identifier against either leg of each row. -/
def getCallContext (env : Env) (callUUID : String) :
    Except String CallContextInfo × List String :=
  match env.esl showCallsCmd with
  | .error e => (.error ("failed to retrieve calls: " ++ e), [showCallsCmd])
  | .ok resp =>
    match env.callsParse resp with
    | .error e => (.error ("failed to parse calls data: " ++ e), [showCallsCmd])
    | .ok rows =>
      match rows.find? (fun row => row.uuid == callUUID || row.buuid == callUUID) with
      | some row =>
        (.ok { uuid := callUUID, accountCode := row.accountcode, found := true },
         [showCallsCmd])
      | none => (.ok { uuid := callUUID, accountCode := "", found := false }, [showCallsCmd])

/-- validateCallContext (auth.go): verify existence (404 when absent, even
under unrestricted scope), then under restricted scope check the account code
against the allowed contexts (403 naming the tenant and the allowed set). -/
def validateCallContext (env : Env) (auth : ContextAuth) (callUUID : String) :
    Except ApiResponse CallContextInfo × List String :=
  if auth.unrestricted then
    match getCallContext env callUUID with
    | (.error e, tr) => (.error (.err 500 ("Failed to verify call: " ++ e)), tr)
    | (.ok info, tr) =>
      if !info.found then (.error (.err 404 ("Call " ++ callUUID ++ " not found")), tr)
      else (.ok info, tr)
  else
    let allowedContexts := auth.contexts
    match getCallContext env callUUID with
    | (.error e, tr) => (.error (.err 500 ("Failed to verify call context: " ++ e)), tr)
    | (.ok info, tr) =>
      if !info.found then (.error (.err 404 ("Call " ++ callUUID ++ " not found")), tr)
      else if allowedContexts.contains info.accountCode then (.ok info, tr)
      else
        (.error (.err 403 ("Call " ++ callUUID ++ " belongs to context \x27" ++
          info.accountCode ++ "\x27 which is not in your allowed contexts: [" ++
          goJoin ", " allowedContexts ++ "]")), tr)

/-- HangupCall (handlers): validate the identifier, validate the call context,
then send uuid_kill with the requested or default cause.  The request body is
(none = undecodable body); a decode failure and an empty cause both fall back
to NORMAL_CLEARING. -/
def HangupCall (env : Env) (auth : ContextAuth) (callUUID : String)
    (reqCause : Option String) : ApiResponse × List String :=
  if !validateUUID callUUID then
    (.err 400 ("invalid UUID format: " ++ callUUID), [])
  else
    match validateCallContext env auth callUUID with
    | (.error resp, tr) => (resp, tr)
    | (.ok _, tr) =>
      let cause :=
        match reqCause with
        | none => "NORMAL_CLEARING"
        | some c => if c == "" then "NORMAL_CLEARING" else c
      let cmd := "api uuid_kill " ++ callUUID ++ " " ++ cause
      match env.esl cmd with
      | .error e =>
        (.err (getErrorStatusCode e) ("Failed to hangup call: " ++ e), tr ++ [cmd])
      | .ok _ =>
        (.success ("Call " ++ callUUID ++ " hung up with cause " ++ cause), tr ++ [cmd])

/-! ## cc_handlers.go: callcenter handlers used by the claims -/

/-- sendCCCommand (cc_handlers.go): the full command string sent for given
callcenter_config arguments. -/
def ccCmd (args : String) : String := "api callcenter_config " ++ args

/-- validateCCDomain (cc_handlers.go), as a pure check: ok under unrestricted
scope or when the entity name's domain is allowed, 403 otherwise. -/
def validateCCDomain (auth : ContextAuth) (entityName entityType : String) :
    Except ApiResponse Unit :=
  if auth.unrestricted then .ok ()
  else if isDomainAllowed entityName auth.contexts then .ok ()
  else
    .error (.err 403 (entityType ++ " \x27" ++ entityName ++
      "\x27 belongs to domain \x27" ++ extractDomain entityName ++
      "\x27 which is not in your allowed contexts: [" ++
      goJoin ", " auth.contexts ++ "]"))

/-- validateCCDomainRaw (cc_handlers.go): like validateCCDomain but for a raw
domain string from the request body. -/
def validateCCDomainRaw (auth : ContextAuth) (domain entityType : String) :
    Except ApiResponse Unit :=
  if auth.unrestricted then .ok ()
  else if auth.contexts.contains domain then .ok ()
  else
    .error (.err 403 (entityType ++ " domain \x27" ++ domain ++
      "\x27 is not in your allowed contexts: [" ++
      goJoin ", " auth.contexts ++ "]"))

/-- CCCountQueues (cc_handlers.go): native count under unrestricted scope;
list, filter by the "name" field's domain, and take the length under
restricted scope. -/
def CCCountQueues (env : Env) (auth : ContextAuth) : ApiResponse × List String :=
  if auth.unrestricted then
    let cmd := ccCmd "queue count"
    match env.esl cmd with
    | .error e => (.err (getErrorStatusCode e) ("Failed to count queues: " ++ e), [cmd])
    | .ok resp =>
      match ParsePlainCount resp with
      | .error e => (.err 500 ("Failed to parse queue count: " ++ e), [cmd])
      | .ok count => (.countResp count, [cmd])
  else
    let cmd := ccCmd "queue list"
    match env.esl cmd with
    | .error e => (.err (getErrorStatusCode e) ("Failed to list queues: " ++ e), [cmd])
    | .ok resp =>
      let rows := filterByDomain (ParsePipeDelimited resp) "name" auth.contexts
      (.countResp rows.length, [cmd])

/-- CCCountQueueAgents (cc_handlers.go): validate the queue name's domain,
then send the native per-queue agent count (with an optional status filter,
"" = absent query parameter). -/
def CCCountQueueAgents (env : Env) (auth : ContextAuth) (queueName status : String) :
    ApiResponse × List String :=
  match validateCCDomain auth queueName "Queue" with
  | .error resp => (resp, [])
  | .ok _ =>
    let cmd :=
      if status == "" then ccCmd ("queue count agents " ++ queueName)
      else ccCmd ("queue count agents " ++ queueName ++ " " ++ status)
    match env.esl cmd with
    | .error e =>
      (.err (getErrorStatusCode e) ("Failed to count queue agents: " ++ e), [cmd])
    | .ok resp =>
      match ParsePlainCount resp with
      | .error e => (.err 500 ("Failed to parse agent count: " ++ e), [cmd])
      | .ok count => (.countResp count, [cmd])

/-- CCCountQueueTiers (cc_handlers.go): validate the queue name's domain, then
send the native per-queue tier count. -/
def CCCountQueueTiers (env : Env) (auth : ContextAuth) (queueName : String) :
    ApiResponse × List String :=
  match validateCCDomain auth queueName "Queue" with
  | .error resp => (resp, [])
  | .ok _ =>
    let cmd := ccCmd ("queue count tiers " ++ queueName)
    match env.esl cmd with
    | .error e =>
      (.err (getErrorStatusCode e) ("Failed to count queue tiers: " ++ e), [cmd])
    | .ok resp =>
      match ParsePlainCount resp with
      | .error e => (.err 500 ("Failed to parse tier count: " ++ e), [cmd])
      | .ok count => (.countResp count, [cmd])

/-- AgentAddRequest (cc_types.go). -/
structure AgentAddRequest where
  name : String
  type : String
  domain : String
deriving Repr, DecidableEq

/-- AgentDelRequest (cc_types.go). -/
structure AgentDelRequest where
  domain : String
deriving Repr, DecidableEq

/-- AgentSetRequest (cc_types.go). -/
structure AgentSetRequest where
  key : String
  value : String
  domain : String
deriving Repr, DecidableEq

/-- validAgentSetKeys (cc_types.go). -/
def validAgentSetKeys : List String :=
  ["status", "state", "contact", "type", "max_no_answer", "wrap_up_time",
   "reject_delay_time", "busy_delay_time", "ready_time"]

/-- CCAddAgent (cc_handlers.go): decode and validate name and type, then the
domain authorization checks, then send agent add. -/
def CCAddAgent (env : Env) (auth : ContextAuth) (body : Option AgentAddRequest) :
    ApiResponse × List String :=
  match body with
  | none => (.err 400 "Invalid request body", [])
  | some req =>
    if req.name == "" then (.err 400 "name is required", [])
    else if req.type == "" then (.err 400 "type is required", [])
    else if req.type != "callback" && req.type != "uuid-standby" then
      (.err 400 "type must be \x27callback\x27 or \x27uuid-standby\x27", [])
    else if req.domain == "" && !auth.unrestricted then
      (.err 400 "domain is required for authorization", [])
    else
      match (if req.domain != "" then validateCCDomainRaw auth req.domain "Agent"
             else .ok ()) with
      | .error resp => (resp, [])
      | .ok _ =>
        let cmd := ccCmd ("agent add " ++ req.name ++ " " ++ req.type)
        match env.esl cmd with
        | .error e => (.err (getErrorStatusCode e) ("Failed to add agent: " ++ e), [cmd])
        | .ok _ =>
          (.success ("Agent " ++ req.name ++ " added with type " ++ req.type), [cmd])

/-- The part of CCDeleteAgent after body decoding (cc_handlers.go): the domain
authorization checks, then agent del. -/
def ccDeleteAgentChecked (env : Env) (auth : ContextAuth) (agentName domain : String) :
    ApiResponse × List String :=
  if domain == "" && !auth.unrestricted then
    (.err 400 "domain is required for authorization", [])
  else
    match (if domain != "" then validateCCDomainRaw auth domain "Agent" else .ok ()) with
    | .error resp => (resp, [])
    | .ok _ =>
      let cmd := ccCmd ("agent del " ++ agentName)
      match env.esl cmd with
      | .error e => (.err (getErrorStatusCode e) ("Failed to delete agent: " ++ e), [cmd])
      | .ok _ => (.success ("Agent " ++ agentName ++ " deleted"), [cmd])

/-- CCDeleteAgent (cc_handlers.go): a body that fails to decode is fatal only
under restricted scope (unrestricted proceeds with the zero-valued request). -/
def CCDeleteAgent (env : Env) (auth : ContextAuth) (agentName : String)
    (body : Option AgentDelRequest) : ApiResponse × List String :=
  match body with
  | none =>
    if !auth.unrestricted then
      (.err 400 "Invalid request body: domain is required for authorization", [])
    else ccDeleteAgentChecked env auth agentName ""
  | some req => ccDeleteAgentChecked env auth agentName req.domain

/-- CCSetAgent (cc_handlers.go): decode and validate the key, then the domain
authorization checks, then agent set. -/
def CCSetAgent (env : Env) (auth : ContextAuth) (agentName : String)
    (body : Option AgentSetRequest) : ApiResponse × List String :=
  match body with
  | none => (.err 400 "Invalid request body", [])
  | some req =>
    if req.key == "" then (.err 400 "key is required", [])
    else if !validAgentSetKeys.contains req.key then
      (.err 400 ("invalid key \x27" ++ req.key ++
        "\x27: must be one of: status, state, contact, type, max_no_answer, wrap_up_time, reject_delay_time, busy_delay_time, ready_time"), [])
    else if req.domain == "" && !auth.unrestricted then
      (.err 400 "domain is required for authorization", [])
    else
      match (if req.domain != "" then validateCCDomainRaw auth req.domain "Agent"
             else .ok ()) with
      | .error resp => (resp, [])
      | .ok _ =>
        let cmd := ccCmd ("agent set " ++ req.key ++ " " ++ agentName ++ " \x27" ++
          req.value ++ "\x27")
        match env.esl cmd with
        | .error e =>
          (.err (getErrorStatusCode e) ("Failed to set agent " ++ req.key ++ ": " ++ e), [cmd])
        | .ok _ =>
          (.success ("Agent " ++ agentName ++ " " ++ req.key ++ " set to \x27" ++
            req.value ++ "\x27"), [cmd])

/-- Concrete environment for the C2 witness: one live call whose account code
is other.com. -/
def c2Env : Env where
  esl := fun c => if c = showCallsCmd then .ok "calls-json" else .error "unused"
  callsParse := fun s =>
    if s = "calls-json" then
      .ok [{ uuid := "11111111-1111-1111-1111-111111111111", buuid := "",
             accountcode := "other.com" }]
    else .error "bad json"

/-- Concrete environment for C3: the switch answers the native per-queue
agent count with 5 and rejects everything else. -/
def c3Env : Env where
  esl := fun c =>
    if c = ccCmd "queue count agents q@acme.com" then .ok "5"
    else .error "unexpected command"
  callsParse := fun _ => .error "unused"

/-- An environment whose switch is unreachable; used where a handler must be
shown to send nothing. -/
def anyEnv : Env where
  esl := fun _ => .error "unavailable"
  callsParse := fun _ => .error "unavailable"

/-! ## Claim C1: scope derivation -/

/-- Wildcard detection in the token loop of contextAuthMiddleware: the
unrestricted flag is set exactly when some comma token trims to the
wildcard. -/
lemma parseContextTokens_snd_iff (toks : List String) :
    (parseContextTokens toks).2 = true ↔ WILDCARD_CONTEXT ∈ toks.map goTrim := by
  induction toks with
  | nil => simp [parseContextTokens]
  | cons c rest ih =>
    simp only [parseContextTokens, List.map_cons, List.mem_cons]
    by_cases h1 : goTrim c = ""
    · rw [if_pos h1, h1]
      have hw : ¬(WILDCARD_CONTEXT = "") := by decide
      simp [ih, hw]
    · rw [if_neg h1]
      by_cases h2 : goTrim c = WILDCARD_CONTEXT
      · rw [if_pos h2]
        simp [h2]
      · rw [if_neg h2]
        simp only [ih]
        constructor
        · exact Or.inr
        · rintro (h | h)
          · exact absurd h.symm h2
          · exact h

/-- Context accumulation in the token loop of contextAuthMiddleware: when no
wildcard was seen, the collected contexts are the trimmed tokens with the
empty ones dropped. -/
lemma parseContextTokens_fst (toks : List String)
    (h : (parseContextTokens toks).2 = false) :
    (parseContextTokens toks).1 = (toks.map goTrim).filter (fun t => t != "") := by
  induction toks with
  | nil => simp [parseContextTokens]
  | cons c rest ih =>
    simp only [parseContextTokens, List.map_cons] at h ⊢
    by_cases h1 : goTrim c = ""
    · rw [if_pos h1] at h ⊢
      rw [List.filter_cons]
      simp [h1, ih h]
    · rw [if_neg h1] at h ⊢
      by_cases h2 : goTrim c = WILDCARD_CONTEXT
      · rw [if_pos h2] at h
        simp at h
      · rw [if_neg h2] at h ⊢
        rw [List.filter_cons]
        simp only at h
        simp [h1, ih h]

/-- C1: scope derivation from the per-request declaration.  An absent
declaration (the empty header value) yields the unrestricted scope; otherwise
the declaration is split on commas, each token trimmed, empties dropped,
giving the restricted context set; and the scope is unrestricted exactly when
the wildcard token appears among the trimmed comma-separated tokens,
regardless of any other tokens present. -/
theorem c1_scope_derivation (header : String) :
    (header = "" → contextAuthMiddleware header = { contexts := [], unrestricted := true }) ∧
    ((contextAuthMiddleware header).unrestricted = true ↔
      header = "" ∨ WILDCARD_CONTEXT ∈ (goSplitStr ',' header).map goTrim) ∧
    ((contextAuthMiddleware header).unrestricted = false →
      (contextAuthMiddleware header).contexts =
        ((goSplitStr ',' header).map goTrim).filter (fun t => t != "")) := by
  by_cases h : header = ""
  · refine ⟨fun _ => by rw [contextAuthMiddleware, if_pos h], ?_, ?_⟩
    · rw [contextAuthMiddleware, if_pos h]
      simp [h]
    · intro hu
      rw [contextAuthMiddleware, if_pos h] at hu
      simp at hu
  · refine ⟨fun hh => absurd hh h, ?_, ?_⟩
    · rw [contextAuthMiddleware, if_neg h]
      simp only []
      rw [parseContextTokens_snd_iff]
      simp [h]
    · intro hu
      rw [contextAuthMiddleware, if_neg h] at hu ⊢
      exact parseContextTokens_fst _ hu

/-- C1 witness: the theorem applied to concrete headers - a wildcard hidden
between other tokens makes the scope unrestricted, and a plain list yields
exactly the trimmed nonempty tokens. -/
theorem c1_scope_derivation_witness :
    (contextAuthMiddleware "").unrestricted = true ∧
    (contextAuthMiddleware "a, *, b").unrestricted = true ∧
    (contextAuthMiddleware " acme.com ,, beta.org ").contexts = ["acme.com", "beta.org"] := by
  refine ⟨?_, ?_, ?_⟩
  · rw [(c1_scope_derivation "").1 rfl]
  · exact (c1_scope_derivation "a, *, b").2.1.mpr (Or.inr (by decide))
  · rw [(c1_scope_derivation " acme.com ,, beta.org ").2.2 (by decide)]
    decide

/-! ## Claim C6: the table parser -/

/-- The indexed row loop equals header-against-fields zipping with padding:
position i of the loop reads the fields from offset i on. -/
lemma mkRowGo_eq_zipPad (fields hs : List String) (i : Nat) :
    mkRowGo fields i hs = zipPad hs (fields.drop i) := by
  induction hs generalizing i with
  | nil => simp [mkRowGo, zipPad]
  | cons h t ih =>
    by_cases hi : i < fields.length
    · have hdrop : fields.drop i = fields.get ⟨i, hi⟩ :: fields.drop (i + 1) :=
        List.drop_eq_getElem_cons hi
      have hgetD : fields.getD i "" = fields.get ⟨i, hi⟩ := List.getD_eq_getElem fields "" hi
      simp only [mkRowGo, if_pos hi, ih, hdrop, zipPad, hgetD]
    · have hge : fields.length ≤ i := Nat.le_of_not_lt hi
      have hdrop : fields.drop i = [] := List.drop_eq_nil_of_le hge
      have hdrop2 : fields.drop (i + 1) = [] :=
        List.drop_eq_nil_of_le (Nat.le_succ_of_le hge)
      simp only [mkRowGo, if_neg hi, ih, hdrop, hdrop2, zipPad]

/-- Once the header is parsed, the line loop maps every kept line to its
zipped row. -/
lemma ppdLoop_some (hs lines : List String) :
    ppdLoop (some hs) lines =
      ((lines.map goTrim).filter (fun l => !skipLine l)).map
        (fun d => zipPad hs (goSplitStr '|' d)) := by
  induction lines with
  | nil => simp [ppdLoop]
  | cons line rest ih =>
    simp only [ppdLoop, List.map_cons, List.filter_cons]
    by_cases hskip : skipLine (goTrim line) = true
    · rw [if_pos hskip]
      simp [hskip, ih]
    · rw [if_neg hskip]
      simp only [Bool.not_eq_true] at hskip
      simp [hskip, ih, mkRowGo_eq_zipPad]

/-- Before the header is parsed, the line loop takes the first kept line as
header and zips the remaining kept lines against it. -/
lemma ppdLoop_none (lines : List String) :
    ppdLoop none lines =
      match (lines.map goTrim).filter (fun l => !skipLine l) with
      | [] => []
      | h :: ds =>
        ds.map (fun d => zipPad ((goSplitStr '|' h).map goTrim) (goSplitStr '|' d)) := by
  induction lines with
  | nil => simp [ppdLoop]
  | cons line rest ih =>
    simp only [ppdLoop, List.map_cons, List.filter_cons]
    by_cases hskip : skipLine (goTrim line) = true
    · rw [if_pos hskip]
      simp [hskip, ih]
    · rw [if_neg hskip]
      simp only [Bool.not_eq_true] at hskip
      simp [hskip, ppdLoop_some]

/-- C6: the table parser is total and structurally as specified - for every
input string it equals the spec-side parser (first kept line is the header
split on the pipe separator, every later kept line is zipped against the
header with missing trailing fields as "" and extra fields dropped, output a
list, possibly empty), and the two spec examples hold: header a|b|c with row
1|2|3 gives the full mapping, and short row 1|2 pads c with "". -/
theorem c6_table_parse_structure :
    (∀ raw, ParsePipeDelimited raw = specTableRows raw) ∧
    ParsePipeDelimited "a|b|c\n1|2|3" = [[("a", "1"), ("b", "2"), ("c", "3")]] ∧
    ParsePipeDelimited "a|b|c\n1|2" = [[("a", "1"), ("b", "2"), ("c", "")]] := by
  refine ⟨?_, by decide, by decide⟩
  intro raw
  rw [ParsePipeDelimited, specTableRows, ppdLoop_none]

/-! ## Claim C7: the counter parser -/

/-- The line loop of ParsePlainCount is the first line value found. -/
lemma firstCount_eq_findSome (lines : List String) :
    firstCount lines = lines.findSome? countLineVal := by
  induction lines with
  | nil => rfl
  | cons l ls ih =>
    simp only [firstCount, countLineVal, List.findSome?]
    by_cases h : skipLine (goTrim l) = true
    · rw [if_pos h, if_pos h, ih]
    · rw [if_neg h, if_neg h]
      cases hg : goAtoi (goTrim l) <;> simp [ih]

/-- Blank lines do not parse as integers. -/
lemma goAtoi_empty : goAtoi "" = none := by decide

/-- Acknowledgement lines starting with "+OK" do not parse as integers. -/
lemma goAtoi_of_plusOK (t : String) (h : goStartsWith t "+OK" = true) :
    goAtoi t = none := by
  obtain ⟨cs⟩ := t
  rw [goStartsWith] at h
  rw [List.isPrefixOf_iff_prefix] at h
  obtain ⟨rest, hrest⟩ := h
  have hdata : cs = '+' :: 'O' :: 'K' :: rest := hrest.symm
  subst hdata
  have hO : ('O').isDigit = false := by decide
  simp [goAtoi, digitsVal, hO]

/-- A line contributes no value exactly when it does not parse as an integer
after trimming (skipped lines never parse anyway). -/
lemma countLineVal_eq_none_iff (l : String) :
    countLineVal l = none ↔ goAtoi (goTrim l) = none := by
  rw [countLineVal]
  by_cases h : skipLine (goTrim l) = true
  · rw [if_pos h]
    rw [skipLine] at h
    rcases Bool.or_eq_true_iff.mp h with h1 | h1
    · have : goTrim l = "" := by simpa using h1
      simp [this, goAtoi_empty]
    · simp [goAtoi_of_plusOK _ h1]
  · rw [if_neg h]

/-- C7: the counter parser scans the trimmed input lines top to bottom and
returns the first line value (skipping blank and acknowledgement lines); it
fails exactly when no line of the input parses as an integer; and the
example input with an acknowledgement line, a blank line and then 42 yields
42. -/
theorem c7_counter_parse :
    (∀ raw n, ParsePlainCount raw = .ok n ↔
      (goSplitStr '\n' (goTrim raw)).findSome? countLineVal = some n) ∧
    (∀ raw, (∃ e, ParsePlainCount raw = .error e) ↔
      ∀ l ∈ goSplitStr '\n' (goTrim raw), goAtoi (goTrim l) = none) ∧
    ParsePlainCount "+OK\n\n42\n" = .ok 42 := by
  refine ⟨?_, ?_, rfl⟩
  · intro raw n
    rw [ParsePlainCount]
    rw [firstCount_eq_findSome]
    cases hf : (goSplitStr '\n' (goTrim raw)).findSome? countLineVal with
    | none => simp
    | some m => simp
  · intro raw
    rw [ParsePlainCount]
    rw [firstCount_eq_findSome]
    cases hf : (goSplitStr '\n' (goTrim raw)).findSome? countLineVal with
    | none =>
      simp only [List.findSome?_eq_none_iff] at hf
      simp only [countLineVal_eq_none_iff] at hf
      simpa using hf
    | some m =>
      constructor
      · rintro ⟨e, he⟩
        simp at he
      · intro hall
        obtain ⟨l, hl, hval⟩ := List.exists_of_findSome?_eq_some hf
        rw [(countLineVal_eq_none_iff l).mpr (hall l hl)] at hval
        simp at hval

/-- C7 witness: the theorem applied to two concrete inputs - a numeric line
is found, and an input with no numeric line fails. -/
theorem c7_counter_parse_witness :
    ParsePlainCount "x\n7" = .ok 7 ∧ ∃ e, ParsePlainCount "+OK\nxyz" = .error e := by
  constructor
  · exact (c7_counter_parse.1 "x\n7" 7).mpr (by decide)
  · exact (c7_counter_parse.2.1 "+OK\nxyz").mpr (by decide)

/-! ## Claim C8: the embedded-token extractor -/

/-- The value scan loop of the extractor takes characters while no delimiter
is seen. -/
lemma takeToDelim_eq_takeWhile (cs : List Char) :
    takeToDelim cs = cs.takeWhile (fun c => !isStopDelim c) := by
  induction cs with
  | nil => rfl
  | cons c t ih =>
    simp only [takeToDelim, List.takeWhile_cons]
    by_cases h : isStopDelim c = true
    · simp [h]
    · simp only [Bool.not_eq_true] at h
      simp [h, ih]

/-- C8: the embedded-token extractor equals the spec-side description - the
substring following the first occurrence of "domain_name=" up to but not
including the next delimiter among comma, space, closing brace, single quote
and double quote (to the end when none follows), and "" when the key is
absent - together with the two spec examples. -/
theorem c8_embedded_token_extractor :
    (∀ contact, ExtractDomainFromContact contact = specExtractDomain contact) ∧
    ExtractDomainFromContact "sofia/internal/sip:1001@10.0.0.1,domain_name=foo.com,presence" =
      "foo.com" ∧
    ExtractDomainFromContact "sofia/internal/sip:1001@10.0.0.1" = "" := by
  refine ⟨?_, by decide, by decide⟩
  intro contact
  rw [ExtractDomainFromContact, specExtractDomain]
  cases hsi : strIndex domainNameKey.data contact.data with
  | none => rfl
  | some idx =>
    simp only []
    by_cases hlen : idx + domainNameKey.data.length ≥ contact.data.length
    · rw [if_pos hlen]
      rw [List.drop_eq_nil_of_le hlen]
      rfl
    · rw [if_neg hlen, takeToDelim_eq_takeWhile]

/-! ## Claim C10: restricted list filtering fails closed -/

/-- Splitting at a character that does not occur finds nothing. -/
lemma splitFirst_eq_none (sep : Char) (cs : List Char) (h : sep ∉ cs) :
    splitFirst sep cs = none := by
  induction cs with
  | nil => rfl
  | cons c t ih =>
    simp only [List.mem_cons, not_or] at h
    simp only [splitFirst]
    rw [if_neg (fun hc => h.1 hc.symm), ih h.2]

/-- A name with no at-sign has no extractable domain. -/
lemma extractDomain_eq_empty (s : String) (h : (Char.ofNat 64) ∉ s.data) :
    extractDomain s = "" := by
  rw [extractDomain]
  have hsplit : splitNChar (Char.ofNat 64) 2 s.data = [s.data] := by
    simp only [splitNChar, splitFirst_eq_none _ _ h]
  rw [hsplit]

/-- C10: under restricted scope the list filters fail closed on rows whose
tenant cannot be derived - a row whose name or queue field has no at-sign
separator is excluded by filterByDomain, and an agent row whose contact field
contains no domain_name= token is excluded by filterAgentsByDomain, for every
allowed-context set. -/
theorem c10_filters_fail_closed (rows : List Row) (fieldName : String)
    (allowedContexts : List String) (row : Row) :
    (('@' : Char) ∉ (rowGet row fieldName).data →
      row ∉ filterByDomain rows fieldName allowedContexts) ∧
    (goContains (rowGet row "contact") domainNameKey = false →
      row ∉ filterAgentsByDomain rows allowedContexts) := by
  constructor
  · intro h hmem
    rw [filterByDomain, List.mem_filter] at hmem
    have hdom : extractDomain (rowGet row fieldName) = "" := extractDomain_eq_empty _ h
    rw [isDomainAllowed] at hmem
    simp [hdom] at hmem
  · intro h hmem
    rw [filterAgentsByDomain, List.mem_filter] at hmem
    have hex : ExtractDomainFromContact (rowGet row "contact") = "" := by
      rw [goContains] at h
      cases hsi : strIndex domainNameKey.data (rowGet row "contact").data with
      | none => rw [ExtractDomainFromContact, hsi]
      | some idx => rw [hsi] at h; simp at h
    simp only [hex] at hmem
    simp at hmem

/-- C10 witness: the theorem applied to a concrete row lacking both an
at-sign in its name field and a domain token in its contact field. -/
theorem c10_filters_fail_closed_witness :
    [("name", "queue-without-domain"), ("contact", "no-key-here")] ∉
      filterByDomain [[("name", "queue-without-domain"), ("contact", "no-key-here")]]
        "name" ["acme.com"] ∧
    [("name", "queue-without-domain"), ("contact", "no-key-here")] ∉
      filterAgentsByDomain [[("name", "queue-without-domain"), ("contact", "no-key-here")]]
        ["acme.com"] := by
  have h := c10_filters_fail_closed
    [[("name", "queue-without-domain"), ("contact", "no-key-here")]]
    "name" ["acme.com"] [("name", "queue-without-domain"), ("contact", "no-key-here")]
  exact ⟨h.1 (by decide), h.2 (by decide)⟩

/-! ## Claims C4 and C9: the session -/

/-- When the cached connection exists or dialing succeeds, acquisition yields
a connection and a state that caches it. -/
lemma getConnection_acquired (esl : ESLgoClient) (dial : DialOutcome)
    (hacq : esl.conn.isSome = true ∨ dial = DialOutcome.ok) :
    ∃ c esl1, getConnection esl dial = (.ok c, esl1) ∧ esl1.conn = some c := by
  cases hc : esl.conn with
  | some c => exact ⟨c, esl, by simp only [getConnection, hc], hc⟩
  | none =>
    rcases hacq with hs | hd
    · rw [hc] at hs
      simp at hs
    · subst hd
      exact ⟨esl.nextId, { conn := some esl.nextId, nextId := esl.nextId + 1 },
        by simp only [getConnection, hc], rfl⟩

/-- Reduction of SendCommand when acquisition and command parsing succeed:
one transport attempt is made, a transport failure clears the cached
connection, and a reply keeps it, with the error marker checked on the
reply-text slot and the body slot preferred when non-empty. -/
lemma SendCommand_eq (esl : ESLgoClient) (cmd : String) (dial : DialOutcome)
    (out : SendOutcome) (c : Nat) (esl1 : ESLgoClient) (a : ApiCmd)
    (hg : getConnection esl dial = (.ok c, esl1))
    (ha : parseApiCommand cmd = .ok a) :
    SendCommand esl cmd dial out =
      match out with
      | .transportErr m =>
        ((.error ("ESL command failed: " ++ m), { esl1 with conn := none }), [cmd])
      | .reply rt body =>
        if goStartsWith rt "-ERR" then ((.error ("ESL error: " ++ rt), esl1), [cmd])
        else if body ≠ "" then ((.ok body, esl1), [cmd])
        else ((.ok rt, esl1), [cmd]) := by
  unfold SendCommand
  rw [hg, ha]

/-- C4: within one SendCommand invocation on an acquirable connection and a
well-formed command, the cached connection is invalidated (set to absent)
exactly when the transport round trip fails; a reply whose status text starts
with the "-ERR" marker is surfaced as a remote error while the cached
connection is kept; and at most one transport attempt is made (no retry). -/
theorem c4_session_invalidation (esl : ESLgoClient) (cmd : String)
    (dial : DialOutcome) (out : SendOutcome)
    (hacq : esl.conn.isSome = true ∨ dial = DialOutcome.ok)
    (hfmt : ∃ a, parseApiCommand cmd = Except.ok a) :
    ((SendCommand esl cmd dial out).1.2.conn = none ↔
      ∃ m, out = SendOutcome.transportErr m) ∧
    (∀ rt body, out = SendOutcome.reply rt body → goStartsWith rt "-ERR" = true →
      (SendCommand esl cmd dial out).1.1 = Except.error ("ESL error: " ++ rt) ∧
      (SendCommand esl cmd dial out).1.2 = (getConnection esl dial).2) ∧
    (SendCommand esl cmd dial out).2.length ≤ 1 := by
  obtain ⟨a, ha⟩ := hfmt
  obtain ⟨c, esl1, hg, hc1⟩ := getConnection_acquired esl dial hacq
  have hsc := SendCommand_eq esl cmd dial out c esl1 a hg ha
  refine ⟨?_, ?_, ?_⟩
  · rw [hsc]
    cases out with
    | transportErr m => simp
    | reply rt body =>
      constructor
      · intro hnone
        by_cases hE : goStartsWith rt "-ERR" = true
        · simp [hE, hc1] at hnone
        · by_cases hb : body = ""
          · simp [hE, hb, hc1] at hnone
          · simp [hE, hb, hc1] at hnone
      · rintro ⟨m, hm⟩
        exact absurd hm (by simp)
  · intro rt body hout hE
    subst hout
    rw [hsc, hg]
    simp [hE]
  · rw [hsc]
    cases out with
    | transportErr m => simp
    | reply rt body =>
      by_cases hE : goStartsWith rt "-ERR" = true
      · simp [hE]
      · by_cases hb : body = "" <;> simp [hE, hb]

/-- C4 witness: the theorem applied to a concrete session - a transport
failure clears the cached connection, an explicit "-ERR" reply keeps it. -/
theorem c4_session_invalidation_witness :
    (SendCommand { conn := some 0, nextId := 1 } "api status" DialOutcome.ok
      (SendOutcome.transportErr "io timeout")).1.2.conn = none ∧
    (SendCommand { conn := some 0, nextId := 1 } "api status" DialOutcome.ok
      (SendOutcome.reply "-ERR command not found" "")).1.2.conn = some 0 := by
  constructor
  · exact (c4_session_invalidation { conn := some 0, nextId := 1 } "api status" .ok
      (.transportErr "io timeout") (Or.inl rfl) ⟨_, rfl⟩).1.mpr ⟨"io timeout", rfl⟩
  · have h := (c4_session_invalidation { conn := some 0, nextId := 1 } "api status" .ok
      (.reply "-ERR command not found" "") (Or.inl rfl) ⟨_, rfl⟩).2.1
      "-ERR command not found" "" rfl (by decide)
    rw [h.2]
    rfl

/-- C9: a successful round trip returns exactly one normalized string - the
body slot when non-empty, otherwise the reply-text slot. -/
theorem c9_reply_normalization (esl : ESLgoClient) (cmd : String)
    (dial : DialOutcome) (rt body : String)
    (hacq : esl.conn.isSome = true ∨ dial = DialOutcome.ok)
    (hfmt : ∃ a, parseApiCommand cmd = Except.ok a)
    (hE : goStartsWith rt "-ERR" = false) :
    (SendCommand esl cmd dial (.reply rt body)).1.1 =
      Except.ok (if body ≠ "" then body else rt) := by
  obtain ⟨a, ha⟩ := hfmt
  obtain ⟨c, esl1, hg, _⟩ := getConnection_acquired esl dial hacq
  rw [SendCommand_eq esl cmd dial _ c esl1 a hg ha]
  by_cases hb : body = "" <;> simp [hE, hb]

/-- C9 witness: the theorem applied to concrete replies - a non-empty body
wins, an empty body falls back to the reply text. -/
theorem c9_reply_normalization_witness :
    (SendCommand { conn := some 0, nextId := 1 } "api status" DialOutcome.ok
      (SendOutcome.reply "+OK" "UP 0 years")).1.1 = Except.ok "UP 0 years" ∧
    (SendCommand { conn := some 0, nextId := 1 } "api status" DialOutcome.ok
      (SendOutcome.reply "+OK accepted" "")).1.1 = Except.ok "+OK accepted" := by
  constructor
  · have h := c9_reply_normalization { conn := some 0, nextId := 1 } "api status" .ok
      "+OK" "UP 0 years" (Or.inl rfl) ⟨_, rfl⟩ (by decide)
    rw [h]
    rfl
  · have h := c9_reply_normalization { conn := some 0, nextId := 1 } "api status" .ok
      "+OK accepted" "" (Or.inl rfl) ⟨_, rfl⟩ (by decide)
    rw [h]
    rfl

/-! ## Claim C2: call-targeting denial before channel output -/

/-- C2: a hangup under restricted scope on a call whose resolved account code
is not in the allowed set responds 403, with a message naming the offending
tenant and the full allowed set, and the only command ever sent is the
show-calls context query - no uuid_kill command reaches the switch. -/
theorem c2_hangup_denied_before_kill (env : Env) (auth : ContextAuth)
    (callUUID : String) (reqCause : Option String) (resp : String)
    (rows : List CallRow) (row : CallRow)
    (hu : validateUUID callUUID = true)
    (hr : auth.unrestricted = false)
    (h1 : env.esl showCallsCmd = .ok resp)
    (h2 : env.callsParse resp = .ok rows)
    (h3 : rows.find? (fun r => r.uuid == callUUID || r.buuid == callUUID) = some row)
    (h4 : auth.contexts.contains row.accountcode = false) :
    HangupCall env auth callUUID reqCause =
      (.err 403 ("Call " ++ callUUID ++ " belongs to context \x27" ++ row.accountcode ++
        "\x27 which is not in your allowed contexts: [" ++
        goJoin ", " auth.contexts ++ "]"), [showCallsCmd]) ∧
    ∀ c ∈ (HangupCall env auth callUUID reqCause).2,
      goStartsWith c "api uuid_kill" = false := by
  have hgc : getCallContext env callUUID =
      (.ok { uuid := callUUID, accountCode := row.accountcode, found := true },
       [showCallsCmd]) := by
    simp only [getCallContext, h1, h2, h3]
  have hvc : validateCallContext env auth callUUID =
      (.error (.err 403 ("Call " ++ callUUID ++ " belongs to context \x27" ++
        row.accountcode ++ "\x27 which is not in your allowed contexts: [" ++
        goJoin ", " auth.contexts ++ "]")), [showCallsCmd]) := by
    have h4m : row.accountcode ∉ auth.contexts := by simpa using h4
    simp only [validateCallContext, hr, hgc]
    simp [h4m]
  have hmain : HangupCall env auth callUUID reqCause =
      (.err 403 ("Call " ++ callUUID ++ " belongs to context \x27" ++ row.accountcode ++
        "\x27 which is not in your allowed contexts: [" ++
        goJoin ", " auth.contexts ++ "]"), [showCallsCmd]) := by
    simp only [HangupCall, hu, hvc]
    simp
  refine ⟨hmain, ?_⟩
  rw [hmain]
  intro c hc
  rw [List.mem_singleton] at hc
  subst hc
  decide

/-- C2 witness: the theorem applied to the concrete environment - the hangup
of the other.com call under scope {acme.com} is denied with 403 and only the
context query was sent. -/
theorem c2_hangup_denied_before_kill_witness :
    HangupCall c2Env { contexts := ["acme.com"], unrestricted := false }
      "11111111-1111-1111-1111-111111111111" none =
      (.err 403 ("Call 11111111-1111-1111-1111-111111111111 belongs to context " ++
        "\x27other.com\x27 which is not in your allowed contexts: [acme.com]"),
       [showCallsCmd]) := by
  have h := c2_hangup_denied_before_kill c2Env
    { contexts := ["acme.com"], unrestricted := false }
    "11111111-1111-1111-1111-111111111111" none "calls-json"
    [{ uuid := "11111111-1111-1111-1111-111111111111", buuid := "",
       accountcode := "other.com" }]
    { uuid := "11111111-1111-1111-1111-111111111111", buuid := "",
      accountcode := "other.com" }
    (by decide) rfl rfl rfl rfl rfl
  rw [h.1]
  rfl

/-! ## Claim C3: count-versus-list duality -/

/-- C3 counterexample: under the restricted scope {acme.com}, the per-queue
agents count endpoint issues exactly the native count command (and returns
its parsed value), refuting the claim that every count endpoint under
restricted scope fetches the full list instead and never issues the native
count command. -/
theorem c3_counterexample :
    ({ contexts := ["acme.com"], unrestricted := false } : ContextAuth).unrestricted
        = false ∧
    CCCountQueueAgents c3Env { contexts := ["acme.com"], unrestricted := false }
        "q@acme.com" "" =
      (.countResp 5, [ccCmd "queue count agents q@acme.com"]) ∧
    goStartsWith (ccCmd "queue count agents q@acme.com")
        "api callcenter_config queue count" = true := by
  exact ⟨rfl, rfl, by decide⟩

/-- C3 (amended): the top-level queues count endpoint obeys the
count-versus-list duality - under restricted scope it issues only the list
command and returns the filtered length, under unrestricted scope it issues
only the native count command - while the per-queue agents and tiers count
endpoints instead validate the queue name's tenant (failing 403 with no
command sent) and then use the native per-queue count command even under
restricted scope. -/
theorem c3_count_duality_amended (env : Env) (auth : ContextAuth)
    (queueName status : String) :
    (auth.unrestricted = false →
      (CCCountQueues env auth).2 = [ccCmd "queue list"] ∧
      ∀ resp, env.esl (ccCmd "queue list") = .ok resp →
        (CCCountQueues env auth).1 =
          .countResp (filterByDomain (ParsePipeDelimited resp) "name"
            auth.contexts).length) ∧
    (auth.unrestricted = true → (CCCountQueues env auth).2 = [ccCmd "queue count"]) ∧
    (auth.unrestricted = false → isDomainAllowed queueName auth.contexts = false →
      (CCCountQueueAgents env auth queueName status).2 = [] ∧
      (∃ m, (CCCountQueueAgents env auth queueName status).1 = .err 403 m) ∧
      (CCCountQueueTiers env auth queueName).2 = []) ∧
    (auth.unrestricted = false → isDomainAllowed queueName auth.contexts = true →
      (CCCountQueueAgents env auth queueName status).2 =
        [if status == "" then ccCmd ("queue count agents " ++ queueName)
         else ccCmd ("queue count agents " ++ queueName ++ " " ++ status)] ∧
      (CCCountQueueTiers env auth queueName).2 =
        [ccCmd ("queue count tiers " ++ queueName)]) := by
  refine ⟨?_, ?_, ?_, ?_⟩
  · intro hr
    constructor
    · unfold CCCountQueues
      rw [hr]
      cases he : env.esl (ccCmd "queue list") <;> simp [he]
    · intro resp hresp
      unfold CCCountQueues
      rw [hr]
      simp [hresp]
  · intro hr
    unfold CCCountQueues
    rw [hr]
    cases he : env.esl (ccCmd "queue count") with
    | error e => simp [he]
    | ok resp => cases hp : ParsePlainCount resp <;> simp [he, hp]
  · intro hr hdom
    have hv : validateCCDomain auth queueName "Queue" =
        .error (.err 403 ("Queue \x27" ++ queueName ++ "\x27 belongs to domain \x27" ++
          extractDomain queueName ++ "\x27 which is not in your allowed contexts: [" ++
          goJoin ", " auth.contexts ++ "]")) := by
      unfold validateCCDomain
      rw [hr, hdom]
      rfl
    refine ⟨?_, ?_, ?_⟩
    · simp only [CCCountQueueAgents, hv]
    · exact ⟨"Queue \x27" ++ queueName ++ "\x27 belongs to domain \x27" ++
        extractDomain queueName ++ "\x27 which is not in your allowed contexts: [" ++
        goJoin ", " auth.contexts ++ "]", by simp only [CCCountQueueAgents, hv]⟩
    · simp only [CCCountQueueTiers, hv]
  · intro hr hdom
    have hv : validateCCDomain auth queueName "Queue" = .ok () := by
      unfold validateCCDomain
      rw [hr, hdom]
      rfl
    constructor
    · simp only [CCCountQueueAgents, hv]
      generalize (if (status == "") = true then ccCmd ("queue count agents " ++ queueName)
          else ccCmd ("queue count agents " ++ queueName ++ " " ++ status)) = cmd
      cases he : env.esl cmd with
      | error e => simp [he]
      | ok resp => cases hp : ParsePlainCount resp <;> simp [he, hp]
    · simp only [CCCountQueueTiers, hv]
      cases he : env.esl (ccCmd ("queue count tiers " ++ queueName)) with
      | error e => simp [he]
      | ok resp => cases hp : ParsePlainCount resp <;> simp [he, hp]

/-- C3 witness: the amended theorem applied to the concrete environment and
scope - the queues count issues the list command even though the switch
errors, the allowed per-queue agents count issues the native count command,
and a disallowed queue name produces no command at all. -/
theorem c3_count_duality_amended_witness :
    (CCCountQueues c3Env { contexts := ["acme.com"], unrestricted := false }).2 =
      [ccCmd "queue list"] ∧
    (CCCountQueueAgents c3Env { contexts := ["acme.com"], unrestricted := false }
      "q@acme.com" "").2 = [ccCmd "queue count agents q@acme.com"] ∧
    (CCCountQueueTiers c3Env { contexts := ["acme.com"], unrestricted := false }
      "q@other.org").2 = [] := by
  refine ⟨?_, ?_, ?_⟩
  · exact ((c3_count_duality_amended c3Env
      { contexts := ["acme.com"], unrestricted := false } "q" "").1 rfl).1
  · have h := ((c3_count_duality_amended c3Env
      { contexts := ["acme.com"], unrestricted := false } "q@acme.com" "").2.2.2
      rfl (by decide)).1
    rw [h]
    rfl
  · exact ((c3_count_duality_amended c3Env
      { contexts := ["acme.com"], unrestricted := false } "q@other.org" "").2.2.1
      rfl (by decide)).2.2

/-! ## Claim C5: agent writes require an explicit domain -/

/-- C5: every agent write operation (add, delete, set) with otherwise valid
input, invoked under restricted scope, requires the tenant in the request
body - a missing domain fails 400 with no command sent, a supplied domain
outside the allowed set fails 403 with no command sent - while under
unrestricted scope the domain may be omitted and the command is sent. -/
theorem c5_agent_write_requires_domain (env : Env) (auth : ContextAuth)
    (agentName : String) (addReq : AgentAddRequest) (setReq : AgentSetRequest)
    (delReq : AgentDelRequest)
    (hname : addReq.name ≠ "")
    (htype : addReq.type = "callback" ∨ addReq.type = "uuid-standby")
    (hkey : validAgentSetKeys.contains setReq.key = true) :
    (auth.unrestricted = false →
      (addReq.domain = "" →
        CCAddAgent env auth (some addReq) =
          (.err 400 "domain is required for authorization", [])) ∧
      (addReq.domain ≠ "" → auth.contexts.contains addReq.domain = false →
        CCAddAgent env auth (some addReq) =
          (.err 403 ("Agent domain \x27" ++ addReq.domain ++
            "\x27 is not in your allowed contexts: [" ++
            goJoin ", " auth.contexts ++ "]"), [])) ∧
      (CCDeleteAgent env auth agentName none =
        (.err 400 "Invalid request body: domain is required for authorization", [])) ∧
      (delReq.domain = "" →
        CCDeleteAgent env auth agentName (some delReq) =
          (.err 400 "domain is required for authorization", [])) ∧
      (delReq.domain ≠ "" → auth.contexts.contains delReq.domain = false →
        CCDeleteAgent env auth agentName (some delReq) =
          (.err 403 ("Agent domain \x27" ++ delReq.domain ++
            "\x27 is not in your allowed contexts: [" ++
            goJoin ", " auth.contexts ++ "]"), [])) ∧
      (setReq.domain = "" →
        CCSetAgent env auth agentName (some setReq) =
          (.err 400 "domain is required for authorization", [])) ∧
      (setReq.domain ≠ "" → auth.contexts.contains setReq.domain = false →
        CCSetAgent env auth agentName (some setReq) =
          (.err 403 ("Agent domain \x27" ++ setReq.domain ++
            "\x27 is not in your allowed contexts: [" ++
            goJoin ", " auth.contexts ++ "]"), []))) ∧
    (auth.unrestricted = true → addReq.domain = "" →
      (CCAddAgent env auth (some addReq)).2 =
        [ccCmd ("agent add " ++ addReq.name ++ " " ++ addReq.type)]) := by
  have hname0 : (addReq.name == "") = false := beq_eq_false_iff_ne.mpr hname
  have htype0 : (addReq.type == "") = false := by
    rcases htype with h | h <;> rw [h] <;> decide
  have htype1 : (addReq.type != "callback" && addReq.type != "uuid-standby") = false := by
    rcases htype with h | h <;> rw [h] <;> decide
  have hkey0 : (setReq.key == "") = false := by
    by_cases hkeq : setReq.key = ""
    · rw [hkeq] at hkey
      exact absurd hkey (by decide)
    · exact beq_eq_false_iff_ne.mpr hkeq
  have hkey1 : (!validAgentSetKeys.contains setReq.key) = false := by
    rw [hkey]
    rfl
  constructor
  · intro hr
    refine ⟨?_, ?_, ?_, ?_, ?_, ?_, ?_⟩
    · intro hd
      simp [CCAddAgent, hname0, htype0, htype1, hr, hd]
    · intro hd hcont
      have hd0 : (addReq.domain == "") = false := beq_eq_false_iff_ne.mpr hd
      simp only [CCAddAgent, hname0, htype0, htype1, hr, hd0, validateCCDomainRaw, hcont]
      simp [hd]
    · simp [CCDeleteAgent, hr]
    · intro hd
      simp [CCDeleteAgent, ccDeleteAgentChecked, hr, hd]
    · intro hd hcont
      have hd0 : (delReq.domain == "") = false := beq_eq_false_iff_ne.mpr hd
      simp only [CCDeleteAgent, ccDeleteAgentChecked, hr, hd0, validateCCDomainRaw, hcont]
      simp [hd]
    · intro hd
      have hkeym : setReq.key ∈ validAgentSetKeys := by simpa using hkey
      simp [CCSetAgent, hkey0, hkey1, hr, hd, hkeym]
    · intro hd hcont
      have hd0 : (setReq.domain == "") = false := beq_eq_false_iff_ne.mpr hd
      simp only [CCSetAgent, hkey0, hkey1, hr, hd0, validateCCDomainRaw, hcont]
      simp [hd]
  · intro hr hd
    simp only [CCAddAgent, hname0, htype0, htype1, hr, hd]
    cases he : env.esl (ccCmd ("agent add " ++ addReq.name ++ " " ++ addReq.type)) <;>
      simp [he]

/-- C5 witness: the theorem applied to concrete requests - a valid add with
no domain under restricted scope is rejected 400 before any command, and a
valid set naming a foreign domain is rejected 403. -/
theorem c5_agent_write_requires_domain_witness :
    CCAddAgent anyEnv { contexts := ["acme.com"], unrestricted := false }
      (some { name := "1001", type := "callback", domain := "" }) =
      (.err 400 "domain is required for authorization", []) ∧
    CCSetAgent anyEnv { contexts := ["acme.com"], unrestricted := false } "1001"
      (some { key := "status", value := "Available", domain := "evil.org" }) =
      (.err 403 "Agent domain \x27evil.org\x27 is not in your allowed contexts: [acme.com]",
       []) := by
  have h := c5_agent_write_requires_domain anyEnv
    { contexts := ["acme.com"], unrestricted := false } "1001"
    { name := "1001", type := "callback", domain := "" }
    { key := "status", value := "Available", domain := "evil.org" }
    { domain := "" }
    (by decide) (Or.inl rfl) (by decide)
  refine ⟨(h.1 rfl).1 rfl, ?_⟩
  have h2 := (h.1 rfl).2.2.2.2.2.2 (by decide) (by decide)
  rw [h2]
  rfl

end FsApi
